import Mathlib
/-!
# Verification of the RMdev chat-widget Session Controller

Shallow embedding of the client-side chat widget (`production_build/frontend/app.js`
and the companion widget script): the streaming NDJSON transport decoder, the
message renderer (image tags and listing cards), the lead-gate decision in
`handleRouting`, and the session controller (`sendMessage`, `resetChat`,
`endChatSession`).

Strings are modelled as `List Char`; bytes as `Nat`.  Platform builtins used by
the source (TextDecoder, `String.prototype.trim`, `JSON.parse`, `Number`,
`toLocaleString`, `crypto.randomUUID`) are modelled explicitly where their
behaviour matters and left parametric (`parse`) where it does not.
-/
/-- JS string value (`List Char`). -/
abbrev JsStr := List Char
/-- Whitespace recognised by JS `String.prototype.trim` / regex `\s`
(common characters; exotic Unicode spaces are not exercised here). -/
def isWsJs (c : Char) : Bool :=
  c = ' ' || c = '\t' || c = '\n' || c = '\r' || c = '\x0b' || c = '\x0c'
/-- Model of JS `String.prototype.trim`: strip `isWsJs` from both ends. -/
def trimJs (s : JsStr) : JsStr :=
  ((s.dropWhile isWsJs).reverse.dropWhile isWsJs).reverse
/-- JS `a || b` on strings where `a` may be `undefined`-collapsed to `""`
(both `undefined` and the empty string are falsy). -/
def jsOrL (a b : JsStr) : JsStr := if a.isEmpty then b else a
/-- JS `a || b` where `a` is an optional string (`none` = property absent). -/
def jsOrO (a : Option JsStr) (b : JsStr) : JsStr :=
  match a with
  | some s => if s.isEmpty then b else s
  | none => b
/-- JS truthiness of an optional string property (`undefined` and `""` falsy). -/
def truthy (o : Option JsStr) : Bool :=
  match o with
  | some s => !s.isEmpty
  | none => false
/-- Model of `o === lit` for an optional string against a string literal. -/
def oEq (o : Option JsStr) (t : JsStr) : Bool :=
  match o with
  | some s => s = t
  | none => false
/-! ## Transport Decoder, byte layer

`TextDecoder` with `{stream: true}` as a byte-at-a-time state machine:
the state holds the count of missing continuation bytes and the partial
scalar value of an in-flight multi-byte sequence.  On well-formed UTF-8
(the only inputs the NDJSON contract admits) this agrees with TextDecoder
exactly; ill-formed continuations yield U+FFFD. -/
/-- Is `b` a UTF-8 continuation byte `10xxxxxx`? -/
def isCont (b : Nat) : Bool := 0x80 ≤ b && b < 0xC0
/-- Number of continuation bytes demanded by lead byte `b`
(`none` for bytes that cannot start a sequence). -/
def leadInfo (b : Nat) : Option Nat :=
  if b < 0x80 then some 0
  else if b < 0xC2 then none
  else if b < 0xE0 then some 1
  else if b < 0xF0 then some 2
  else if b < 0xF5 then some 3
  else none
/-- Payload bits of a lead byte that expects `n ≥ 1` continuation bytes. -/
def leadVal (b n : Nat) : Nat := b % 2 ^ (6 - n)
/-- Turn a decoded scalar into a `Char`, U+FFFD for invalid scalars. -/
def mkChar (n : Nat) : Char :=
  if n.isValidChar then Char.ofNat n else '�'
/-- TextDecoder streaming state: `need` missing continuation bytes,
`acc` the partial scalar. `need = 0` means no sequence in flight. -/
structure Utf8State where
  need : Nat
  acc : Nat
deriving DecidableEq
/-- Initial (empty) TextDecoder state. -/
def u8init : Utf8State := ⟨0, 0⟩
/-- Feed one byte to the streaming UTF-8 decoder, yielding the next state and
the characters emitted by this byte (0, 1 or 2). -/
def utf8Byte (s : Utf8State) (b : Nat) : Utf8State × List Char :=
  if s.need = 0 then
    match leadInfo b with
    | some 0 => (u8init, [mkChar b])
    | some n => (⟨n, leadVal b n⟩, [])
    | none => (u8init, ['�'])
  else
    if isCont b then
      if s.need = 1 then (u8init, [mkChar (s.acc * 64 + b % 64)])
      else (⟨s.need - 1, s.acc * 64 + b % 64⟩, [])
    else
      -- pending sequence invalidated; the byte is then examined afresh
      match leadInfo b with
      | some 0 => (u8init, ['�', mkChar b])
      | some n => (⟨n, leadVal b n⟩, ['�'])
      | none => (u8init, ['�', '�'])
/-- Feed a whole chunk of bytes: `decoder.decode(value, {stream: true})`. -/
def utf8Chunk (s : Utf8State) : List Nat → Utf8State × List Char
  | [] => (s, [])
  | b :: bs =>
    let st := utf8Byte s b
    let rest := utf8Chunk st.1 bs
    (rest.1, st.2 ++ rest.2)
/-! ## Transport Decoder, line layer

`buffer += text; const lines = buffer.split('\n'); buffer = lines.pop();`
as a character-at-a-time splitter carrying the incomplete trailing line. -/
/-- Accumulate characters into lines: returns the new pending buffer and the
completed lines (in order). -/
def linesChunk (acc : List Char) : List Char → List Char × List (List Char)
  | [] => (acc, [])
  | c :: cs =>
    if c = '\n' then
      let r := linesChunk [] cs
      (r.1, acc :: r.2)
    else
      linesChunk (acc ++ [c]) cs
/-! ## Transport Decoder, event layer -/
/-- Decoder state across reads: TextDecoder state plus the pending line. -/
structure DecState where
  u8 : Utf8State
  lineAcc : List Char
deriving DecidableEq
/-- Fresh decoder at the start of a send. -/
def decInit : DecState := ⟨u8init, []⟩
/-- Process one `reader.read()` chunk: decode bytes, split off completed lines,
skip blank lines (`if (!line.trim()) continue`), and parse each remaining line
(`JSON.parse` modelled by the parameter `parse`; a parse failure — `none` —
emits no event). -/
def feedChunk (parse : JsStr → Option α) (st : DecState) (chunk : List Nat) :
    DecState × List α :=
  let u := utf8Chunk st.u8 chunk
  let l := linesChunk st.lineAcc u.2
  (⟨u.1, l.1⟩, l.2.filterMap fun line =>
    if (trimJs line).isEmpty then none else parse line)
/-- Run the read loop over a list of chunks from a given decoder state. -/
def feedMany (parse : JsStr → Option α) (st : DecState) :
    List (List Nat) → DecState × List α
  | [] => (st, [])
  | c :: cs =>
    let r1 := feedChunk parse st c
    let r2 := feedMany parse r1.1 cs
    (r2.1, r1.2 ++ r2.2)
/-- The whole decoder: events produced from a sequence of reads.  Trailing
bytes not terminated by a newline are left in the final state and discarded,
as in the source (`if (done) break` drops the remaining `buffer`). -/
def decodeAll (parse : JsStr → Option α) (chunks : List (List Nat)) : List α :=
  (feedMany parse decInit chunks).2
/-! ## UTF-8 encoding (to state well-formed-stream facts) -/
/-- Standard UTF-8 encoding of one character. -/
def utf8EncodeChar (c : Char) : List Nat :=
  let n := c.toNat
  if n < 0x80 then [n]
  else if n < 0x800 then [0xC0 + n / 64, 0x80 + n % 64]
  else if n < 0x10000 then
    [0xE0 + n / 4096, 0x80 + n / 64 % 64, 0x80 + n % 64]
  else
    [0xF0 + n / 0x40000, 0x80 + n / 4096 % 64, 0x80 + n / 64 % 64, 0x80 + n % 64]
/-- UTF-8 encoding of a string. -/
def utf8Encode (s : List Char) : List Nat :=
  s.foldr (fun c acc => utf8EncodeChar c ++ acc) []
/-- NDJSON encoding of a list of lines: each line UTF-8 encoded and
newline-terminated. -/
def ndjsonEncode (ls : List (List Char)) : List Nat :=
  utf8Encode (ls.foldr (fun l acc => l ++ '\n' :: acc) [])
/-- The events the decoder derives from a list of complete lines: blank lines
are skipped, every other line contributes its parse (if any). -/
def lineEvents (parse : JsStr → Option α) (ls : List (List Char)) : List α :=
  ls.filterMap fun line => if (trimJs line).isEmpty then none else parse line
/-! ## Message Renderer

`renderAssistantMessage` (production `app.js`): a global-replace pass for the
image-tag regex
`/<image([1-5])(?:\s+src="([^"]+)")?(?:\s+alt="([^"]*)")?\s*>(.*?)<\/image\1>/gis`,
then one for the listing-card regex `/<listing-card\s+([^>]+)><\/listing-card>/gis`.
Both are embedded as left-to-right scanners with the same leftmost,
non-overlapping match semantics (the `i` flag becomes case-insensitive
character comparison; the lazy inner group becomes first-occurrence search for
the close tag). -/
/-- One parsed inline image reference (the `images` array entries). -/
structure ImageRef where
  src : JsStr
  alt : JsStr
deriving DecidableEq
/-- Case-insensitive literal match (regex `i` flag); returns the remainder. -/
def litCI : List Char → List Char → Option (List Char)
  | [], s => some s
  | _ :: _, [] => none
  | p :: ps, c :: cs => if c.toLower = p.toLower then litCI ps cs else none
/-- Regex `\w`. -/
def isWordChar (c : Char) : Bool := c.isAlphanum || c = '_'
/-- Optional attribute group `(?:\s+name="([^"]*)")?`; `needOne` selects the
`[^"]+` variant.  On failure nothing is consumed (the group is skipped). -/
def tryAttr (name : List Char) (needOne : Bool) (s : List Char) :
    Option JsStr × List Char :=
  match s with
  | [] => (none, s)
  | c :: cs =>
    if isWsJs c then
      match litCI (name ++ ['=', '"']) (cs.dropWhile isWsJs) with
      | some r1 =>
        let content := r1.takeWhile (fun x => x != '"')
        match r1.dropWhile (fun x => x != '"') with
        | '"' :: r3 =>
          if needOne && content.isEmpty then (none, s) else (some content, r3)
        | _ => (none, s)
      | none => (none, s)
    else (none, s)
/-- The literal part of the image close tag. -/
def closeImageLit : JsStr := "</image".data
/-- Try to match `</image‹d›>` at the head of `s` (case-insensitive). -/
def closeTagAt (d : Char) (s : List Char) : Option (List Char) :=
  match litCI closeImageLit s with
  | some (x :: xs) =>
    if x = d then
      match xs with
      | '>' :: r2 => some r2
      | _ => none
    else none
  | _ => none
/-- Lazy inner group `(.*?)` followed by the backreferenced close tag: find the
first position where `</image‹d›>` matches; return the inner text and the
remainder after the close tag. -/
def findClose (d : Char) : List Char → Option (List Char × List Char)
  | [] => none
  | c :: cs =>
    match closeTagAt d (c :: cs) with
    | some rest => some ([], rest)
    | none =>
      match findClose d cs with
      | some (inn, rest) => some (c :: inn, rest)
      | none => none
/-- The literal `image` of the open tag. -/
def imageLit : JsStr := "image".data
/-- The literal `src`. -/
def srcLit : JsStr := "src".data
/-- The literal `alt`. -/
def altLit : JsStr := "alt".data
/-- Match the image-tag regex immediately after a `<`.  Returns the image to
collect (if the resolved source is non-empty — `if (src) images.push(...)`)
and the remainder of the text after the close tag.  The replacement callback
computes `src = (srcAttr || inner || '').trim()` and likewise for `alt`. -/
def matchImageAfterLt (s : List Char) : Option (Option ImageRef × List Char) :=
  match litCI imageLit s with
  | some (d :: r2) =>
    if d = '1' || d = '2' || d = '3' || d = '4' || d = '5' then
      let sa := tryAttr srcLit true r2
      let aa := tryAttr altLit false sa.2
      match aa.2.dropWhile isWsJs with
      | '>' :: r6 =>
        match findClose d r6 with
        | some (inner, r7) =>
          let src := trimJs (jsOrL (sa.1.getD []) inner)
          let alt := trimJs (jsOrL (aa.1.getD []) inner)
          some (if src.isEmpty then none else some ⟨src, alt⟩, r7)
        | none => none
      | _ => none
    else none
  | _ => none
/-- The image-tag global replace: scan left to right; at each `<` try the tag
match (collecting the image, dropping the tag text), otherwise keep the
character.  Fuel is the input length; every step consumes at least one
character, so the fuel never runs out (`scanImagesAux_fuel`). -/
def scanImagesAux : Nat → List Char → List Char × List ImageRef
  | _, [] => ([], [])
  | 0, s => (s, [])
  | fuel + 1, c :: rest =>
    if c = '<' then
      match matchImageAfterLt rest with
      | some (img, r) =>
        let t := scanImagesAux fuel r
        (t.1, match img with | some i => i :: t.2 | none => t.2)
      | none =>
        let t := scanImagesAux fuel rest
        (c :: t.1, t.2)
    else
      let t := scanImagesAux fuel rest
      (c :: t.1, t.2)
/-- The image-tag pass of `renderAssistantMessage`: cleaned text and collected
images. -/
def scanImages (s : List Char) : List Char × List ImageRef :=
  scanImagesAux s.length s
/-! ### Listing cards -/
/-- The literal `listing-card`. -/
def listingCardLit : JsStr := "listing-card".data
/-- The literal close tag `</listing-card>`. -/
def closeListingLit : JsStr := "</listing-card>".data
/-- Match `/<listing-card\s+([^>]+)><\/listing-card>/i` immediately after a
`<`: at least one whitespace then at least one further non-`>` character (the
greedy `\s+` backtracks one character when everything before `>` is
whitespace), then `>` and the literal close tag.  Returns the captured
attribute text and the remainder. -/
def matchCardAfterLt (s : List Char) : Option (List Char × List Char) :=
  match litCI listingCardLit s with
  | some r1 =>
    match r1.takeWhile (fun x => x != '>') with
    | [] => none
    | c0 :: sp =>
      -- the captured span needs one `\s` plus at least one more character
      if isWsJs c0 && !sp.isEmpty then
        let span := c0 :: sp
        let wsLen := (span.takeWhile isWsJs).length
        let attrStr := span.drop (min wsLen (span.length - 1))
        match r1.dropWhile (fun x => x != '>') with
        | '>' :: r3 =>
          match litCI closeListingLit r3 with
          | some r4 => some (attrStr, r4)
          | none => none
        | _ => none
      else none
  | none => none
/-- The card-attribute regex `(\w+)="([^"]*)"` run globally over the captured
attribute text (`while ((m = regex.exec(attrString)) !== null)`), collected in
match order.  Fuel is the input length; each step consumes at least one
character. -/
def extractAttrsAux : Nat → List Char → List (JsStr × JsStr)
  | _, [] => []
  | 0, _ => []
  | fuel + 1, c :: cs =>
    if isWordChar c then
      match (c :: cs).dropWhile isWordChar with
      | '=' :: '"' :: r2 =>
        match r2.dropWhile (fun x => x != '"') with
        | '"' :: r4 =>
          ((c :: cs).takeWhile isWordChar, r2.takeWhile (fun x => x != '"')) ::
            extractAttrsAux fuel r4
        | _ => extractAttrsAux fuel cs
      | _ => extractAttrsAux fuel cs
    else extractAttrsAux fuel cs
/-- Attribute extraction over the captured text. -/
def extractAttrs (s : List Char) : List (JsStr × JsStr) :=
  extractAttrsAux s.length s
/-- Model of `attrs[m[1]] = m[2]` — object assignment, so a later duplicate key wins. -/
def lookupAttr (attrs : List (JsStr × JsStr)) (k : JsStr) : Option JsStr :=
  attrs.foldl (fun acc p => if p.1 = k then some p.2 else acc) none
/-! ### Price formatting -/
/-- Model of JS `Number(string)` on the inputs exercised by price formatting:
whitespace-trimmed; empty string is `0`; a plain decimal-digit string is its
value; anything else (no leading `$`-stripping, no grouping commas, non-numeric
text) is `NaN`, modelled as `none`.  (Fractional/exponent/hex forms are not
exercised by listing-card prices.) -/
def jsNumber (s : JsStr) : Option Nat :=
  let t := trimJs s
  if t.isEmpty then some 0
  else if t.all Char.isDigit then
    some (t.foldl (fun a c => a * 10 + (c.toNat - '0'.toNat)) 0)
  else none
/-- Insert a comma after every three digits, counting from the right
(input and output both reversed). -/
def grpAux : Nat → List Char → List Char
  | _, [] => []
  | 0, c :: cs => ',' :: c :: grpAux 2 cs
  | k + 1, c :: cs => c :: grpAux k cs
/-- Model of `Number.prototype.toLocaleString` for whole numbers in the default
`en-US`-style locale: decimal digits with `,` thousands separators. -/
def groupDigits (s : List Char) : List Char := (grpAux 3 s.reverse).reverse
/-- Model of `NaN` rendered by `toLocaleString`. -/
def nanLit : JsStr := "NaN".data
/-- Model of `Number(p).toLocaleString()`. -/
def toLocaleNum (o : Option Nat) : JsStr :=
  match o with
  | some n => groupDigits (Nat.repr n).data
  | none => nanLit
/-- The placeholder shown when the price attribute is absent or falsy. -/
def contactForPrice : JsStr := "Contact for Price".data
/-- Model of `attrs.price ? (attrs.price.startsWith('$') ? attrs.price :
`$${Number(attrs.price).toLocaleString()}`) : 'Contact for Price'`. -/
def priceFormatted (price : Option JsStr) : JsStr :=
  match price with
  | some p =>
    if p.isEmpty then contactForPrice
    else if p.head? = some '$' then p
    else '$' :: toLocaleNum (jsNumber p)
  | none => contactForPrice
/-- The structured content of one rendered listing card (the fields
interpolated into the card template string). -/
structure Card where
  link : JsStr
  image : Option JsStr
  price : JsStr
  address : JsStr
  beds : JsStr
  baths : JsStr
  sqft : JsStr
deriving DecidableEq
/-- Literal `'#'` — default link target. -/
def hashLit : JsStr := ['#']
/-- Placeholder for a missing address. -/
def addressUnavailable : JsStr := "Address Unavailable".data
/-- Placeholder for missing numeric stats. -/
def qmLit : JsStr := ['?']
/-- Attribute keys of the listing-card template. -/
def linkKey : JsStr := "link".data
/-- Model of `image`. -/
def imageKey : JsStr := "image".data
/-- Model of `price`. -/
def priceKey : JsStr := "price".data
/-- Model of `address`. -/
def addressKey : JsStr := "address".data
/-- Model of `beds`. -/
def bedsKey : JsStr := "beds".data
/-- Model of `baths`. -/
def bathsKey : JsStr := "baths".data
/-- Model of `sqft`. -/
def sqftKey : JsStr := "sqft".data
/-- Build the card from the captured attribute text, exactly as the template
string does (`attrs.link || '#'`, conditional `<img>`, price formatting, and
`|| '?'` / `|| 'Address Unavailable'` placeholders). -/
def mkListingCard (attrString : List Char) : Card :=
  let attrs := extractAttrs attrString
  { link := jsOrO (lookupAttr attrs linkKey) hashLit
    image :=
      match lookupAttr attrs imageKey with
      | some s => if s.isEmpty then none else some s
      | none => none
    price := priceFormatted (lookupAttr attrs priceKey)
    address := jsOrO (lookupAttr attrs addressKey) addressUnavailable
    beds := jsOrO (lookupAttr attrs bedsKey) qmLit
    baths := jsOrO (lookupAttr attrs bathsKey) qmLit
    sqft := jsOrO (lookupAttr attrs sqftKey) qmLit }
/-! ### The assistant bubble -/
/-- A node of the rendered assistant bubble: plain text characters, a listing
card, or a carousel figure (what `buildCarousel` would attach). -/
inductive Piece where
  | ch (c : Char)
  | card (c : Card)
  | figure (src alt : JsStr) (captioned : Bool)
deriving DecidableEq
/-- The listing-card global replace: each matched tag becomes a `card` piece
in place; all other characters are kept. -/
def scanCardsAux : Nat → List Char → List Piece
  | _, [] => []
  | 0, s => s.map Piece.ch
  | fuel + 1, c :: rest =>
    if c = '<' then
      match matchCardAfterLt rest with
      | some (attrStr, r) =>
        Piece.card (mkListingCard attrStr) :: scanCardsAux fuel r
      | none => Piece.ch c :: scanCardsAux fuel rest
    else Piece.ch c :: scanCardsAux fuel rest
/-- The listing-card pass. -/
def scanCards (s : List Char) : List Piece := scanCardsAux s.length s
/-- The rendered assistant bubble: its body pieces and the image references
collected while stripping image tags. -/
structure Bubble where
  body : List Piece
  collectedImages : List ImageRef
deriving DecidableEq
/-- Model of `renderAssistantMessage`: strip the image tags (collecting their images),
replace the listing-card tags with structured cards, and trim the result
(`bubble.innerHTML = cleaned.trim()...`; the `\n` → `<br>` substitution is a
text-layout detail of the same characters).  Per the source comment
"Removed buildCarousel(images) to avoid duplicates with cards", the collected
images are **not** attached to the bubble — no `figure` piece is ever
produced. -/
def renderAssistantMessage (text : JsStr) : Bubble :=
  let r := scanImages text
  { body := scanCards (trimJs r.1), collectedImages := r.2 }
/-- Model of `Listing image ` alt fallback. -/
def listingImageLit : JsStr := "Listing image ".data
/-- Model of `buildCarousel`: figures for the first five images (`images.slice(0, 5)`),
with the alt fallback `img.alt || `Listing image ${idx+1}`` and a caption only
when `img.alt` is truthy.  Defined in the source but never invoked by
`renderAssistantMessage`. -/
def buildCarousel (images : List ImageRef) : List Piece :=
  (images.take 5).enum.map fun p =>
    Piece.figure p.2.src
      (jsOrL p.2.alt (listingImageLit ++ (Nat.repr (p.1 + 1)).data))
      (!p.2.alt.isEmpty)
/-- The captioned images actually present in a rendered node list. -/
def renderedImages (ps : List Piece) : List (JsStr × JsStr) :=
  ps.filterMap fun p =>
    match p with
    | Piece.figure s a _ => some (s, a)
    | _ => none
/-! ## Session Controller

State of the widget (`let conversationId = ...; let leadFormVisible = false;
...`) and the handlers `handleRouting`, `renderLeadForm`, the lead-form
dismiss handler, `endChatSession`, `sendMessage` (both the streaming
production variant and the non-streaming widget variant) and `resetChat`.
DOM-only effects (scrolling, focus, CSS classes) are not part of the state;
the transcript records `appendMessage` calls, `typing` records the
`showTyping` affordance. -/
/-- Backend-supplied profile snapshot; absent properties are `none`. -/
structure Profile where
  stage : Option JsStr := none
  contact_email : Option JsStr := none
  contact_phone : Option JsStr := none
  product_name : Option JsStr := none
  requested_date : Option JsStr := none
  summary : Option JsStr := none
  intent : Option JsStr := none
  urgency : Option JsStr := none
deriving DecidableEq
/-- Backend-supplied per-turn routing signal. -/
structure Routing where
  lead_capture : Option JsStr := none
  intent : Option JsStr := none
  urgency : Option JsStr := none
  summary : Option JsStr := none
deriving DecidableEq
/-- Model of `pendingLeadMeta` contents. -/
structure LeadMeta where
  intent : JsStr
  summary : JsStr
  urgency : JsStr
deriving DecidableEq
/-- Transcript entry author. -/
inductive Role where
  | user
  | assistant
deriving DecidableEq
/-- The widget's session state. -/
structure SessionState where
  conversationId : JsStr
  leadFormVisible : Bool := false
  leadSubmitted : Bool := false
  pendingLeadMeta : Option LeadMeta := none
  latestProfile : Profile := {}
  sessionRating : Option JsStr := none
  chatEnded : Bool := false
  transcript : List (Role × JsStr) := []
  inputValue : JsStr := []
  typing : Bool := false
  endScheduled : Bool := false
deriving DecidableEq
/-- Model of `saveConversation(id)`: unguarded assignment `conversationId = id`. -/
def saveConversation (st : SessionState) (id : JsStr) : SessionState :=
  { st with conversationId := id }
/-- Literal `"yes"`. -/
def yesLit : JsStr := "yes".data
/-- Literal `"contact"`. -/
def contactLit : JsStr := "contact".data
/-- Literal `"schedule"`. -/
def scheduleLit : JsStr := "schedule".data
/-- Literal `"book"`. -/
def bookLit : JsStr := "book".data
/-- Literal `"buy"`. -/
def buyLit : JsStr := "buy".data
/-- Literal `"pricing"`. -/
def pricingLit : JsStr := "pricing".data
/-- Literal `"other"`. -/
def otherLit : JsStr := "other".data
/-- Literal `"unknown"`. -/
def unknownLit : JsStr := "unknown".data
/-- Generic lead-form summary fallback. -/
def defaultLeadSummary : JsStr :=
  "To confirm availability we just need the best way to reach you.".data
/-- Model of `profile?.contact_email || profile?.contact_phone` as a boolean. -/
def contactOnFile (p : Option Profile) : Bool :=
  truthy (p.bind Profile.contact_email) || truthy (p.bind Profile.contact_phone)
/-- Model of `renderLeadForm(routing, force, profile)`: early-out when a form is
already visible and not forced; otherwise set `pendingLeadMeta` from the
routing/profile fallbacks and mark the form visible.  (The DOM fields —
prefilled email/phone, default contact method — live in the form markup,
outside the session state.) -/
def renderLeadForm (st : SessionState) (routing : Routing) (force : Bool)
    (profile : Profile) : SessionState :=
  if st.leadFormVisible && !force then st
  else
    { st with
      pendingLeadMeta := some
        { intent := jsOrO routing.intent (jsOrO profile.intent otherLit)
          summary := jsOrO routing.summary
            (jsOrO profile.summary defaultLeadSummary)
          urgency := jsOrO routing.urgency (jsOrO profile.urgency unknownLit) }
      leadFormVisible := true }
/-- Model of `handleRouting(routing, profile)`: update `latestProfile` when a profile
came with the turn (`updateProfilePanel`), return early when there is no
routing signal, then evaluate the lead gate and possibly show the form. -/
def handleRouting (st : SessionState) (routing : Option Routing)
    (profile : Option Profile) : SessionState :=
  let st1 :=
    match profile with
    | some p => { st with latestProfile := p }
    | none => st
  match routing with
  | none => st1
  | some r =>
    let shouldCard := oEq r.lead_capture yesLit ||
      ((oEq (profile.bind Profile.stage) contactLit ||
        oEq (profile.bind Profile.stage) scheduleLit) && !st1.leadSubmitted)
    let contact := contactOnFile profile
    let highIntent := oEq r.intent bookLit || oEq r.intent buyLit ||
      oEq r.intent pricingLit
    let hasProductOrDate := truthy (profile.bind Profile.product_name) ||
      truthy (profile.bind Profile.requested_date)
    if (shouldCard || highIntent || hasProductOrDate) && !st1.leadFormVisible &&
        !st1.leadSubmitted && !contact then
      renderLeadForm st1 r false
        (match profile with
         | some p => p
         | none => st1.latestProfile)
    else st1
/-- The `.lead-dismiss` ("Remind me later") click handler:
`wrapper.remove(); leadFormVisible = false;`. -/
def dismissLeadForm (st : SessionState) : SessionState :=
  { st with leadFormVisible := false }
/-- Model of `endChatSession()`: flag the session ended, clear and disable the input,
reveal the rating affordance. -/
def endChatSession (st : SessionState) : SessionState :=
  { st with chatEnded := true, inputValue := [] }
/-- Literal `"conv-"`. -/
def convDashLit : JsStr := "conv-".data
/-- Model of `makeConversationId()`: `crypto.randomUUID()` when available (its value is
the `uuid` parameter), otherwise `conv-` + a slice of a random base-36
string (the `randSuffix` parameter, possibly empty). -/
def makeConversationId (uuid : Option JsStr) (randSuffix : JsStr) : JsStr :=
  match uuid with
  | some u => u
  | none => convDashLit ++ randSuffix
/-- Model of `resetChat()`: clear the transcript and lead/rating/ended flags, restore
the input affordances, and install a freshly generated conversation id.
(`latestProfile` is not touched by the source reset.) -/
def resetChat (uuid : Option JsStr) (randSuffix : JsStr) (st : SessionState) :
    SessionState :=
  { st with
    transcript := []
    leadFormVisible := false
    leadSubmitted := false
    pendingLeadMeta := none
    sessionRating := none
    chatEnded := false
    conversationId := makeConversationId uuid randSuffix }
/-- The payload of a `result` event (`event.data`). -/
structure ResultData where
  conversation_id : JsStr
  reply : JsStr
  routing : Option Routing := none
  profile : Option Profile := none
  lead_captured : Bool := false
deriving DecidableEq
/-- A parsed stream event, keyed by its `type` field; `other` covers unknown
types, which the dispatch ignores. -/
inductive EventJson where
  | status (message : JsStr)
  | result (data : ResultData)
  | error (message : JsStr)
  | other
deriving DecidableEq
/-- Event dispatch of the streaming read loop: `status` updates only the
transient typing-bubble text; `result` saves the echoed conversation id,
appends the rendered reply, runs the lead gate, and schedules the delayed
`endChatSession` when `lead_captured` is set; `error` is logged only. -/
def dispatchEvent (st : SessionState) (e : EventJson) : SessionState :=
  match e with
  | .status _ => st
  | .result d =>
    let st1 := saveConversation st d.conversation_id
    let st2 := { st1 with
      transcript := st1.transcript ++ [(Role.assistant, d.reply)] }
    let st3 := handleRouting st2 d.routing d.profile
    if d.lead_captured then { st3 with endScheduled := true } else st3
  | .error _ => st
  | .other => st
/-- How one send's network interaction goes: the fetch rejects, the response
has a non-success status, or a stream of reads (possibly ending in a
mid-stream abort, which the `catch` also handles). -/
inductive Outcome where
  | netErr
  | badStatus
  | stream (chunks : List (List Nat)) (aborted : Bool)
/-- The fixed apology appended by the `catch` block. -/
def apologyMsg : JsStr :=
  "The backend is unavailable right now. Sorry for the inconvenience!".data
/-- The optimistic part of a send: append the user message, clear the input,
show the typing affordance. -/
def afterOptimistic (st : SessionState) : SessionState :=
  { st with
    transcript := st.transcript ++ [(Role.user, trimJs st.inputValue)]
    inputValue := []
    typing := true }
/-- The state after the whole stream has been read and dispatched (the state
"before the failure" when a mid-stream abort follows). -/
def afterStream (parse : JsStr → Option EventJson) (st : SessionState)
    (chunks : List (List Nat)) : SessionState :=
  (decodeAll parse chunks).foldl dispatchEvent (afterOptimistic st)
/-- The streaming `sendMessage` of the production widget.  Returns the new
state and whether a network request was issued.  Guards: no-op when the chat
has ended or the trimmed input is empty.  The `catch` appends the fixed
apology; the `finally` clears the typing affordance on every path. -/
def sendMessage (parse : JsStr → Option EventJson) (st : SessionState)
    (o : Outcome) : SessionState × Bool :=
  if st.chatEnded then (st, false)
  else if (trimJs st.inputValue).isEmpty then (st, false)
  else
    match o with
    | .netErr =>
      let st1 := afterOptimistic st
      ({ st1 with
        transcript := st1.transcript ++ [(Role.assistant, apologyMsg)]
        typing := false }, true)
    | .badStatus =>
      let st1 := afterOptimistic st
      ({ st1 with
        transcript := st1.transcript ++ [(Role.assistant, apologyMsg)]
        typing := false }, true)
    | .stream chunks aborted =>
      let st2 := afterStream parse st chunks
      let st3 :=
        if aborted then
          { st2 with transcript := st2.transcript ++ [(Role.assistant, apologyMsg)] }
        else st2
      ({ st3 with typing := false }, true)
/-- Network interaction of the non-streaming widget variant: a failure
(network error, non-success status, or a body that is not JSON) or a parsed
response object. -/
inductive SimpleOutcome where
  | fail
  | ok (d : ResultData)
/-- The `RM_BUSINESS_ID` configuration message of the widget variant. -/
def notConfiguredMsg : JsStr :=
  "Chat is not configured yet. Please set RM_BUSINESS_ID.".data
/-- The non-streaming `sendMessage` of the widget script: ended guard, then
the `BUSINESS_ID` guard (no network call, a configuration notice appended),
then the empty-message guard; on success the response object is handled
exactly like a `result` event (save id, append reply, lead gate, delayed end);
on failure the apology is appended; `finally` clears typing. -/
def sendMessageSimple (businessId : JsStr) (st : SessionState)
    (o : SimpleOutcome) : SessionState × Bool :=
  if st.chatEnded then (st, false)
  else if businessId.isEmpty then
    ({ st with transcript := st.transcript ++ [(Role.assistant, notConfiguredMsg)] },
      false)
  else if (trimJs st.inputValue).isEmpty then (st, false)
  else
    match o with
    | .fail =>
      let st1 := afterOptimistic st
      ({ st1 with
        transcript := st1.transcript ++ [(Role.assistant, apologyMsg)]
        typing := false }, true)
    | .ok d =>
      let st2 := dispatchEvent (afterOptimistic st) (EventJson.result d)
      ({ st2 with typing := false }, true)
/-- Fixture: a session that already submitted a lead. -/
def stSubmittedW : SessionState :=
  { conversationId := "abc".data, leadSubmitted := true }
/-- Fixture: a profile with a concrete interest signal and no contact. -/
def profProductW : Profile := { product_name := some ("Tour".data) }
/-- Fixture: a routing signal demanding lead capture. -/
def routingYesW : Routing := { lead_capture := some ("yes".data) }
/-- Fixture: a line the witness parser accepts. -/
def lineOkW : JsStr := "ok".data
/-- Fixture: a line the witness parser rejects. -/
def lineBadW : JsStr := "bad".data
/-- Fixture: a concrete parser for the decoder witnesses. -/
def parseW : JsStr → Option Nat := fun s => if s = lineOkW then some 7 else none
/-- Fixture: an idle session with a pending non-empty input. -/
def stIdleW : SessionState :=
  { conversationId := "abc".data, inputValue := "hi".data }
/-- Fixture: a parser of stream events that rejects every line. -/
def parseEvW : JsStr → Option EventJson := fun _ => none
/-- Fixture: an ended session with text still in the input box. -/
def stEndedW : SessionState :=
  { conversationId := "abc".data, chatEnded := true, inputValue := "hi".data }
/-- Fixture: a tenant id for the widget variant. -/
def bidW : JsStr := "default".data
/-- Fixture: a reply containing seven recognized image tags. -/
def sevenTagText : JsStr :=
  ("see <image1 src=\"u1\"></image1><image2 src=\"u2\"></image2>" ++
   "<image3 src=\"u3\"></image3><image4 src=\"u4\"></image4>" ++
   "<image5 src=\"u5\"></image5><image1 src=\"u6\"></image1>" ++
   "<image2 src=\"u7\"></image2> done").data
/-- Fixture: a price starting with a non-dollar currency symbol. -/
def euroPriceAttr : JsStr := "price=\"€100\"".data
/-- Fixture: a dollar-prefixed price. -/
def dollarPriceAttr : JsStr := "price=\"$1,000\"".data
/-- Fixture: a bare-number price. -/
def barePriceAttr : JsStr := "price=\"450000\"".data
/-- Fixture: a card with no price attribute. -/
def noPriceAttr : JsStr := "link=\"x\"".data
/-- Fixture: a fresh, unsuppressed session. -/
def stFreshW : SessionState := { conversationId := "abc".data }
/-- Fixture: a turn whose routing signal carries no fields. -/
def routingEmptyW : Routing := {}
/-- Fixture: a result event echoing an empty conversation id. -/
def resultEmptyIdW : ResultData := { conversation_id := [], reply := "done".data }
/-- Fixture: a result event echoing a fresh server-side id. -/
def resultEchoW : ResultData :=
  { conversation_id := "srv-1".data, reply := "done".data }
/-- Fixture: a platform-supplied UUID. -/
def uuidW : Option JsStr := some ("u-1".data)
/-- Fixture: a session with the lead form currently visible. -/
def stFormVisibleW : SessionState :=
  { conversationId := "abc".data, leadFormVisible := true }

/-! ## Theorems -/

/-- Chunk decoding is a fold: splitting the bytes changes nothing. -/
theorem utf8Chunk_append (s : Utf8State) (x y : List Nat) :
    utf8Chunk s (x ++ y) =
      ((utf8Chunk (utf8Chunk s x).1 y).1,
        (utf8Chunk s x).2 ++ (utf8Chunk (utf8Chunk s x).1 y).2) := by
  induction x generalizing s with
  | nil => simp [utf8Chunk]
  | cons b bs ih => simp [utf8Chunk, ih, List.append_assoc]
/-- Line splitting is a fold over characters. -/
theorem linesChunk_append (acc : List Char) (x y : List Char) :
    linesChunk acc (x ++ y) =
      ((linesChunk (linesChunk acc x).1 y).1,
        (linesChunk acc x).2 ++ (linesChunk (linesChunk acc x).1 y).2) := by
  induction x generalizing acc with
  | nil => simp [linesChunk]
  | cons c cs ih =>
    by_cases h : c = '\n' <;> simp [linesChunk, h, ih]
/-- Feeding a chunk is compatible with splitting it. -/
theorem feedChunk_append (parse : JsStr → Option α) (st : DecState)
    (c1 c2 : List Nat) :
    feedChunk parse st (c1 ++ c2) =
      ((feedChunk parse (feedChunk parse st c1).1 c2).1,
        (feedChunk parse st c1).2 ++ (feedChunk parse (feedChunk parse st c1).1 c2).2) := by
  simp [feedChunk, utf8Chunk_append, linesChunk_append, List.filterMap_append]
/-- Feeding chunks one at a time equals feeding their concatenation. -/
theorem feedMany_eq_flatten (parse : JsStr → Option α) (st : DecState)
    (chunks : List (List Nat)) :
    feedMany parse st chunks = feedChunk parse st chunks.flatten := by
  induction chunks generalizing st with
  | nil => simp [feedMany, feedChunk, utf8Chunk, linesChunk]
  | cons c cs ih => simp [feedMany, List.flatten, feedChunk_append, ih]
/-- Model of `mkChar` of a character's own scalar value gives the character back. -/
theorem mkChar_toNat (c : Char) : mkChar c.toNat = c := by
  have hv : c.toNat.isValidChar := c.valid
  simp only [mkChar, hv, if_pos, Char.ofNat_toNat]
/-- One unfolding step of `utf8Chunk`. -/
theorem utf8Chunk_cons (s : Utf8State) (b : Nat) (bs : List Nat) :
    utf8Chunk s (b :: bs) =
      ((utf8Chunk (utf8Byte s b).1 bs).1,
        (utf8Byte s b).2 ++ (utf8Chunk (utf8Byte s b).1 bs).2) := rfl
/-- A one-byte (ASCII) character decodes immediately. -/
theorem utf8Byte_ascii (b : Nat) (h : b < 0x80) :
    utf8Byte u8init b = (u8init, [mkChar b]) := by
  have hl : leadInfo b = some 0 := by simp [leadInfo, h]
  simp [utf8Byte, u8init, hl]
/-- A multi-byte lead byte opens a pending sequence. -/
theorem utf8Byte_lead (b n : Nat) (h : leadInfo b = some (n + 1)) :
    utf8Byte u8init b = (⟨n + 1, leadVal b (n + 1)⟩, []) := by
  simp [utf8Byte, u8init, h]
/-- A continuation byte that does not yet finish the sequence. -/
theorem utf8Byte_cont_step (s : Utf8State) (b : Nat) (h : isCont b = true)
    (hn : 2 ≤ s.need) :
    utf8Byte s b = (⟨s.need - 1, s.acc * 64 + b % 64⟩, []) := by
  have h0 : ¬ s.need = 0 := by omega
  have h1 : ¬ s.need = 1 := by omega
  simp [utf8Byte, h, h0, h1]
/-- The final continuation byte emits the accumulated scalar. -/
theorem utf8Byte_cont_last (s : Utf8State) (b : Nat) (h : isCont b = true)
    (hn : s.need = 1) :
    utf8Byte s b = (u8init, [mkChar (s.acc * 64 + b % 64)]) := by
  have h0 : ¬ s.need = 0 := by omega
  simp [utf8Byte, h, h0, hn]
/-- Decoding the encoding of one character emits exactly that character. -/
theorem utf8Chunk_encodeChar (c : Char) (bs : List Nat) :
    utf8Chunk u8init (utf8EncodeChar c ++ bs) =
      ((utf8Chunk u8init bs).1, c :: (utf8Chunk u8init bs).2) := by
  have hv : c.toNat.isValidChar := c.valid
  have hlt : c.toNat < 0x110000 := by
    rcases hv with h | ⟨_, h⟩ <;> omega
  by_cases h1 : c.toNat < 0x80
  · have e : utf8EncodeChar c ++ bs = c.toNat :: bs := by
      simp [utf8EncodeChar, h1]
    rw [e, utf8Chunk_cons, utf8Byte_ascii _ h1, mkChar_toNat]
    simp
  · by_cases h2 : c.toNat < 0x800
    · have e : utf8EncodeChar c ++ bs =
          (0xC0 + c.toNat / 64) :: (0x80 + c.toNat % 64) :: bs := by
        simp [utf8EncodeChar, h1, h2]
      have hb0 : leadInfo (0xC0 + c.toNat / 64) = some (0 + 1) := by
        have ha : ¬ (0xC0 + c.toNat / 64 < 0x80) := by omega
        have hb : ¬ (0xC0 + c.toNat / 64 < 0xC2) := by omega
        have hc : 0xC0 + c.toNat / 64 < 0xE0 := by omega
        simp [leadInfo, ha, hb, hc]
      have hb1 : isCont (0x80 + c.toNat % 64) = true := by
        simp only [isCont, Bool.and_eq_true, decide_eq_true_eq]
        omega
      rw [e, utf8Chunk_cons, utf8Byte_lead _ _ hb0, utf8Chunk_cons,
        utf8Byte_cont_last _ _ hb1 rfl]
      have harg : leadVal (0xC0 + c.toNat / 64) (0 + 1) * 64 +
          (0x80 + c.toNat % 64) % 64 = c.toNat := by
        simp only [leadVal]
        omega
      rw [harg, mkChar_toNat]
      simp
    · by_cases h3 : c.toNat < 0x10000
      · have e : utf8EncodeChar c ++ bs =
            (0xE0 + c.toNat / 4096) :: (0x80 + c.toNat / 64 % 64) ::
              (0x80 + c.toNat % 64) :: bs := by
          simp [utf8EncodeChar, h1, h2, h3]
        have hb0 : leadInfo (0xE0 + c.toNat / 4096) = some (1 + 1) := by
          have ha : ¬ (0xE0 + c.toNat / 4096 < 0x80) := by omega
          have hb : ¬ (0xE0 + c.toNat / 4096 < 0xC2) := by omega
          have hc : ¬ (0xE0 + c.toNat / 4096 < 0xE0) := by omega
          have hd : 0xE0 + c.toNat / 4096 < 0xF0 := by omega
          simp [leadInfo, ha, hb, hc, hd]
        have hb1 : isCont (0x80 + c.toNat / 64 % 64) = true := by
          simp only [isCont, Bool.and_eq_true, decide_eq_true_eq]
          omega
        have hb2 : isCont (0x80 + c.toNat % 64) = true := by
          simp only [isCont, Bool.and_eq_true, decide_eq_true_eq]
          omega
        rw [e, utf8Chunk_cons, utf8Byte_lead _ _ hb0, utf8Chunk_cons,
          utf8Byte_cont_step _ _ hb1 (by norm_num), utf8Chunk_cons,
          utf8Byte_cont_last _ _ hb2 rfl]
        have harg : (leadVal (0xE0 + c.toNat / 4096) (1 + 1) * 64 +
            (0x80 + c.toNat / 64 % 64) % 64) * 64 +
            (0x80 + c.toNat % 64) % 64 = c.toNat := by
          simp only [leadVal]
          omega
        rw [harg, mkChar_toNat]
        simp
      · have e : utf8EncodeChar c ++ bs =
            (0xF0 + c.toNat / 0x40000) :: (0x80 + c.toNat / 4096 % 64) ::
              (0x80 + c.toNat / 64 % 64) :: (0x80 + c.toNat % 64) :: bs := by
          simp [utf8EncodeChar, h1, h2, h3]
        have hb0 : leadInfo (0xF0 + c.toNat / 0x40000) = some (2 + 1) := by
          have ha : ¬ (0xF0 + c.toNat / 0x40000 < 0x80) := by omega
          have hb : ¬ (0xF0 + c.toNat / 0x40000 < 0xC2) := by omega
          have hc : ¬ (0xF0 + c.toNat / 0x40000 < 0xE0) := by omega
          have hd : ¬ (0xF0 + c.toNat / 0x40000 < 0xF0) := by omega
          have he : 0xF0 + c.toNat / 0x40000 < 0xF5 := by omega
          simp [leadInfo, ha, hb, hc, hd, he]
        have hb1 : isCont (0x80 + c.toNat / 4096 % 64) = true := by
          simp only [isCont, Bool.and_eq_true, decide_eq_true_eq]
          omega
        have hb2 : isCont (0x80 + c.toNat / 64 % 64) = true := by
          simp only [isCont, Bool.and_eq_true, decide_eq_true_eq]
          omega
        have hb3 : isCont (0x80 + c.toNat % 64) = true := by
          simp only [isCont, Bool.and_eq_true, decide_eq_true_eq]
          omega
        rw [e, utf8Chunk_cons, utf8Byte_lead _ _ hb0, utf8Chunk_cons,
          utf8Byte_cont_step _ _ hb1 (by norm_num), utf8Chunk_cons,
          utf8Byte_cont_step _ _ hb2 (by norm_num), utf8Chunk_cons,
          utf8Byte_cont_last _ _ hb3 rfl]
        have harg : ((leadVal (0xF0 + c.toNat / 0x40000) (2 + 1) * 64 +
            (0x80 + c.toNat / 4096 % 64) % 64) * 64 +
            (0x80 + c.toNat / 64 % 64) % 64) * 64 +
            (0x80 + c.toNat % 64) % 64 = c.toNat := by
          simp only [leadVal]
          omega
        rw [harg, mkChar_toNat]
        simp
/-- Decoding the encoding of a string recovers the string. -/
theorem utf8Chunk_encode (s : List Char) (bs : List Nat) :
    utf8Chunk u8init (utf8Encode s ++ bs) =
      ((utf8Chunk u8init bs).1, s ++ (utf8Chunk u8init bs).2) := by
  induction s with
  | nil => simp [utf8Encode]
  | cons c cs ih =>
    have he : utf8Encode (c :: cs) ++ bs =
        utf8EncodeChar c ++ (utf8Encode cs ++ bs) := by
      simp [utf8Encode]
    rw [he, utf8Chunk_encodeChar, ih]
    simp
/-- Splitting a newline-terminated line off the front of the stream. -/
theorem linesChunk_terminated (acc l rest : List Char) (h : '\n' ∉ l) :
    linesChunk acc (l ++ '\n' :: rest) =
      ((linesChunk [] rest).1, (acc ++ l) :: (linesChunk [] rest).2) := by
  induction l generalizing acc with
  | nil => simp [linesChunk]
  | cons c cs ih =>
    have hc : ¬ c = '\n' := by
      intro hh
      exact h (hh ▸ List.mem_cons_self c cs)
    have hmem : '\n' ∉ cs := fun hh => h (List.mem_cons_of_mem c hh)
    simp [linesChunk, hc, ih (acc ++ [c]) hmem, List.append_assoc]
/-- A single unsplit read of a well-formed NDJSON stream produces exactly the
per-line events. -/
theorem decodeAll_ndjson (parse : JsStr → Option α) (ls : List (List Char))
    (h : ∀ l ∈ ls, '\n' ∉ l) :
    decodeAll parse [ndjsonEncode ls] = lineEvents parse ls := by
  have key : ∀ ls' : List (List Char), (∀ l ∈ ls', '\n' ∉ l) →
      linesChunk [] (ls'.foldr (fun l acc => l ++ '\n' :: acc) []) =
        ([], ls') := by
    intro ls'
    induction ls' with
    | nil => simp [linesChunk]
    | cons l rest ih =>
      intro hmem
      have h1 : '\n' ∉ l := hmem l (List.mem_cons_self l rest)
      have h2 : ∀ x ∈ rest, '\n' ∉ x := fun x hx =>
        hmem x (List.mem_cons_of_mem l hx)
      simp only [List.foldr_cons, linesChunk_terminated [] l _ h1, ih h2,
        List.nil_append]
  have henc := utf8Chunk_encode
    (ls.foldr (fun l acc => l ++ '\n' :: acc) []) []
  simp only [List.append_nil] at henc
  simp [decodeAll, feedMany, feedChunk, ndjsonEncode, decInit, henc,
    utf8Chunk, key ls h, lineEvents]
/-- Model of `dropWhile` only consumes input. -/
theorem dropWhile_length_le (p : Char → Bool) (l : List Char) :
    (l.dropWhile p).length ≤ l.length := by
  induction l with
  | nil => simp
  | cons a as ih =>
    by_cases h : p a = true
    · simp only [List.dropWhile, h, List.length_cons]
      omega
    · simp [List.dropWhile, h]
/-- Model of `litCI` only consumes input. -/
theorem litCI_le (p s r : List Char) (h : litCI p s = some r) :
    r.length ≤ s.length := by
  induction p generalizing s with
  | nil =>
    simp [litCI] at h
    simp [h]
  | cons x xs ih =>
    cases s with
    | nil => simp [litCI] at h
    | cons c cs =>
      simp only [litCI] at h
      by_cases hc : c.toLower = x.toLower
      · simp only [hc, if_pos] at h
        exact Nat.le_trans (ih cs h) (Nat.le_succ _)
      · simp [hc] at h
/-- Model of `tryAttr` only consumes input. -/
theorem tryAttr_le (name : List Char) (b : Bool) (s : List Char) :
    (tryAttr name b s).2.length ≤ s.length := by
  cases s with
  | nil => simp [tryAttr]
  | cons c cs =>
    simp only [tryAttr]
    by_cases hw : isWsJs c = true
    · simp only [hw, if_pos]
      cases hm : litCI (name ++ ['=', '"']) (cs.dropWhile isWsJs) with
      | none => simp
      | some r1 =>
        have hr1 : r1.length ≤ cs.length :=
          Nat.le_trans (litCI_le _ _ _ hm) (dropWhile_length_le _ _)
        cases hr : r1.dropWhile (fun x => x != '"') with
        | nil => simp [hr]
        | cons q qs =>
          by_cases hq : q = '"'
          · subst hq
            simp only [hr]
            have hqs : qs.length < r1.length := by
              have := dropWhile_length_le (fun x => x != '"') r1
              rw [hr] at this
              simp at this
              omega
            by_cases hb : (b && (r1.takeWhile (fun x => x != '"')).isEmpty) = true
            · simp [hb]
            · simp only [hb, if_neg, Bool.not_eq_true]
              simp only [List.length_cons]
              omega
          · simp [hr, hq]
    · simp [hw]
/-- Model of `findClose` only consumes input. -/
theorem findClose_le (d : Char) (s inn r : List Char)
    (h : findClose d s = some (inn, r)) : r.length ≤ s.length := by
  induction s generalizing inn with
  | nil => simp [findClose] at h
  | cons c cs ih =>
    simp only [findClose] at h
    cases hc : closeTagAt d (c :: cs) with
    | some rest =>
      simp only [hc] at h
      have hrest : rest.length ≤ (c :: cs).length := by
        simp only [closeTagAt] at hc
        cases hl : litCI closeImageLit (c :: cs) with
        | none => simp [hl] at hc
        | some r0 =>
          cases r0 with
          | nil => simp [hl] at hc
          | cons x xs =>
            simp only [hl] at hc
            by_cases hx : x = d
            · cases xs with
              | nil => simp [hx] at hc
              | cons y ys =>
                by_cases hy : y = '>'
                · subst hy
                  simp only [hx, if_pos] at hc
                  have := litCI_le _ _ _ hl
                  cases hc
                  simp at this ⊢
                  omega
                · simp [hx, hy] at hc
            · simp [hx] at hc
      simp only [Option.some.injEq, Prod.mk.injEq] at h
      obtain ⟨-, hr⟩ := h
      subst hr
      exact hrest
    | none =>
      simp only [hc] at h
      cases hrec : findClose d cs with
      | none => simp [hrec] at h
      | some p =>
        obtain ⟨i0, r0⟩ := p
        simp only [hrec, Option.some.injEq, Prod.mk.injEq] at h
        obtain ⟨-, hr⟩ := h
        subst hr
        have := ih _ hrec
        simp only [List.length_cons]
        omega
/-- Model of `matchImageAfterLt` only consumes input. -/
theorem matchImageAfterLt_le (s : List Char) (i : Option ImageRef)
    (r : List Char) (h : matchImageAfterLt s = some (i, r)) :
    r.length ≤ s.length := by
  simp only [matchImageAfterLt] at h
  cases hl : litCI imageLit s with
  | none => simp [hl] at h
  | some r1 =>
    cases r1 with
    | nil => simp [hl] at h
    | cons d r2 =>
      simp only [hl] at h
      by_cases hd : (d = '1' || d = '2' || d = '3' || d = '4' || d = '5') = true
      · simp only [hd, if_pos] at h
        have h1 : (d :: r2).length ≤ s.length := litCI_le _ _ _ hl
        have h2 := tryAttr_le srcLit true r2
        have h3 := tryAttr_le altLit false (tryAttr srcLit true r2).2
        have h4 := dropWhile_length_le isWsJs (tryAttr altLit false (tryAttr srcLit true r2).2).2
        cases hr5 : (tryAttr altLit false (tryAttr srcLit true r2).2).2.dropWhile isWsJs with
        | nil => simp [hr5] at h
        | cons g r6 =>
          by_cases hg : g = '>'
          · subst hg
            simp only [hr5] at h
            cases hf : findClose d r6 with
            | none => simp [hf] at h
            | some p =>
              obtain ⟨inn, r7⟩ := p
              simp only [hf, Option.some.injEq, Prod.mk.injEq] at h
              obtain ⟨-, hr⟩ := h
              subst hr
              have h5 := findClose_le d r6 inn r7 hf
              rw [hr5] at h4
              simp at h1 h4
              omega
          · simp [hr5, hg] at h
      · simp [hd] at h
/-- Any fuel at least the input length gives the same scan. -/
theorem scanImagesAux_fuel (f1 : Nat) : ∀ (f2 : Nat) (s : List Char),
    s.length ≤ f1 → s.length ≤ f2 → scanImagesAux f1 s = scanImagesAux f2 s := by
  induction f1 with
  | zero =>
    intro f2 s h1 _
    have : s = [] := List.eq_nil_of_length_eq_zero (Nat.le_zero.mp h1)
    subst this
    cases f2 <;> simp [scanImagesAux]
  | succ f ih =>
    intro f2 s h1 h2
    cases s with
    | nil => cases f2 <;> simp [scanImagesAux]
    | cons c rest =>
      cases f2 with
      | zero => simp at h2
      | succ g =>
        simp only [List.length_cons] at h1 h2
        by_cases hc : c = '<'
        · subst hc
          cases hm : matchImageAfterLt rest with
          | some p =>
            obtain ⟨img, r⟩ := p
            have hr := matchImageAfterLt_le rest img r hm
            simp [scanImagesAux, hm, ih g r (by omega) (by omega)]
          | none => simp [scanImagesAux, hm, ih g rest (by omega) (by omega)]
        · simp [scanImagesAux, hc, ih g rest (by omega) (by omega)]
/-- Model of `matchCardAfterLt` only consumes input. -/
theorem matchCardAfterLt_le (s a r : List Char)
    (h : matchCardAfterLt s = some (a, r)) : r.length ≤ s.length := by
  simp only [matchCardAfterLt] at h
  cases hl : litCI listingCardLit s with
  | none => simp [hl] at h
  | some r1 =>
    simp only [hl] at h
    have hr1 : r1.length ≤ s.length := litCI_le _ _ _ hl
    cases hspan : r1.takeWhile (fun x => x != '>') with
    | nil => simp [hspan] at h
    | cons c0 sp =>
      simp only [hspan] at h
      by_cases hws : (isWsJs c0 && !sp.isEmpty) = true
      · simp only [hws, if_pos] at h
        cases hdrop : r1.dropWhile (fun x => x != '>') with
        | nil => simp [hdrop] at h
        | cons g r3 =>
          by_cases hg : g = '>'
          · subst hg
            simp only [hdrop] at h
            cases hcl : litCI closeListingLit r3 with
            | none => simp [hcl] at h
            | some r4 =>
              simp only [hcl, Option.some.injEq, Prod.mk.injEq] at h
              obtain ⟨-, hr⟩ := h
              subst hr
              have h3 : r3.length < r1.length := by
                have h' := dropWhile_length_le (fun x => x != '>') r1
                rw [hdrop] at h'
                simp at h'
                omega
              have h4 := litCI_le _ _ _ hcl
              omega
          · simp [hdrop, hg] at h
      · simp [hws] at h
/-- Any fuel at least the input length gives the same card scan. -/
theorem scanCardsAux_fuel (f1 : Nat) : ∀ (f2 : Nat) (s : List Char),
    s.length ≤ f1 → s.length ≤ f2 → scanCardsAux f1 s = scanCardsAux f2 s := by
  induction f1 with
  | zero =>
    intro f2 s h1 _
    have : s = [] := List.eq_nil_of_length_eq_zero (Nat.le_zero.mp h1)
    subst this
    cases f2 <;> simp [scanCardsAux]
  | succ f ih =>
    intro f2 s h1 h2
    cases s with
    | nil => cases f2 <;> simp [scanCardsAux]
    | cons c rest =>
      cases f2 with
      | zero => simp at h2
      | succ g =>
        simp only [List.length_cons] at h1 h2
        by_cases hc : c = '<'
        · subst hc
          cases hm : matchCardAfterLt rest with
          | some p =>
            obtain ⟨a, r⟩ := p
            have hr := matchCardAfterLt_le rest a r hm
            simp [scanCardsAux, hm, ih g r (by omega) (by omega)]
          | none => simp [scanCardsAux, hm, ih g rest (by omega) (by omega)]
        · simp [scanCardsAux, hc, ih g rest (by omega) (by omega)]
/-! ## Helper lemmas for the claims -/
/-- Model of `handleRouting` never touches the conversation id. -/
theorem handleRouting_conversationId (st : SessionState) (r : Option Routing)
    (p : Option Profile) :
    (handleRouting st r p).conversationId = st.conversationId := by
  cases r with
  | none => cases p <;> rfl
  | some r =>
    cases p with
    | none =>
      simp only [handleRouting]
      split
      · simp only [renderLeadForm]
        split <;> rfl
      · rfl
    | some p =>
      simp only [handleRouting]
      split
      · simp only [renderLeadForm]
        split <;> rfl
      · rfl
/-- The listing-card pass never produces a carousel figure. -/
theorem scanCardsAux_no_figures (fuel : Nat) : ∀ s : List Char,
    renderedImages (scanCardsAux fuel s) = [] := by
  induction fuel with
  | zero =>
    intro s
    cases s with
    | nil => simp [scanCardsAux, renderedImages]
    | cons c cs =>
      simp only [scanCardsAux, renderedImages, List.filterMap_map]
      have : ∀ x : Char,
          (fun p => match p with
            | Piece.figure s a _ => some (s, a)
            | _ => none) (Piece.ch x) = none := fun _ => rfl
      simp [Function.comp, this]
  | succ f ih =>
    intro s
    cases s with
    | nil => simp [scanCardsAux, renderedImages]
    | cons c rest =>
      by_cases hc : c = '<'
      · subst hc
        cases hm : matchCardAfterLt rest with
        | some p =>
          obtain ⟨a, r⟩ := p
          have := ih r
          simp only [renderedImages] at this ⊢
          simp [scanCardsAux, hm, this]
        | none =>
          have := ih rest
          simp only [renderedImages] at this ⊢
          simp [scanCardsAux, hm, this]
      · have := ih rest
        simp only [renderedImages] at this ⊢
        simp [scanCardsAux, hc, this]
/-- Decimal digits are not JS whitespace. -/
theorem digit_not_ws (a : Char) (h : a.isDigit = true) : isWsJs a = false := by
  cases hw : isWsJs a
  · rfl
  · exfalso
    simp only [isWsJs, Bool.or_eq_true, decide_eq_true_eq] at hw
    rcases hw with ((((hh | hh) | hh) | hh) | hh) | hh <;> subst hh <;>
      exact absurd h (by decide)
/-- Model of `trim` leaves an all-digit string unchanged. -/
theorem trimJs_digits (p : JsStr) (h : p.all Char.isDigit = true) :
    trimJs p = p := by
  have hall := List.all_eq_true.mp h
  have h1 : p.dropWhile isWsJs = p := by
    cases p with
    | nil => rfl
    | cons a as =>
      have ha := hall a (List.mem_cons_self a as)
      simp [List.dropWhile, digit_not_ws a ha]
  have h2 : p.reverse.dropWhile isWsJs = p.reverse := by
    cases hr : p.reverse with
    | nil => rfl
    | cons a as =>
      have ha : a ∈ p := by
        rw [← List.mem_reverse, hr]
        exact List.mem_cons_self _ _
      simp [List.dropWhile, digit_not_ws a (hall a ha)]
  simp [trimJs, h1, h2]
/-! ## The claims -/
/-- C1 Lead Gate suppression precedence: whenever the form is already
visible, a lead was already submitted, or the turn's profile carries a contact
email or phone, `handleRouting` does not show the lead form and leaves the
whole session state unchanged apart from the profile update — for every
routing signal, even when fire conditions hold on the same turn. -/
theorem c1_lead_gate_suppression_precedence (st : SessionState)
    (r : Option Routing) (p : Option Profile)
    (h : st.leadFormVisible = true ∨ st.leadSubmitted = true ∨
      contactOnFile p = true) :
    handleRouting st r p =
      (match p with
       | some q => { st with latestProfile := q }
       | none => st) := by
  cases r with
  | none => cases p <;> rfl
  | some r =>
    rcases h with h | h | h <;> cases p <;> simp [handleRouting, h]
/-- Witness for C1 at a concrete suppressed turn with a live fire condition. -/
theorem c1_lead_gate_suppression_precedence_witness :
    (stSubmittedW.leadFormVisible = true ∨ stSubmittedW.leadSubmitted = true ∨
      contactOnFile (some profProductW) = true) ∧
    handleRouting stSubmittedW (some routingYesW) (some profProductW) =
      { stSubmittedW with latestProfile := profProductW } :=
  ⟨Or.inr (Or.inl (by decide)),
    c1_lead_gate_suppression_precedence stSubmittedW (some routingYesW)
      (some profProductW) (Or.inr (Or.inl (by decide)))⟩
/-- C2 Chunking invariance of the Transport Decoder: for every byte stream
and every way of splitting it into successive reads (including splits mid-line
and mid-UTF-8 character, both carried by the decoder state), the decoder
produces exactly the same event sequence, in order, as a single unsplit
read. -/
theorem c2_decoder_chunking_invariance {α : Type} (parse : JsStr → Option α)
    (chunks : List (List Nat)) :
    decodeAll parse chunks = decodeAll parse [chunks.flatten] := by
  simp [decodeAll, feedMany_eq_flatten, feedMany]
/-- C3 Decode-failure isolation: a complete line on which `JSON.parse`
fails contributes no event, and the events of the lines before and after it
are exactly those they produce on their own, in the same order. -/
theorem c3_decode_failure_isolation {α : Type} (parse : JsStr → Option α)
    (pre post : List (List Char)) (l : JsStr)
    (hbad : parse l = none)
    (hnl : ∀ x ∈ pre ++ l :: post, '\n' ∉ x) :
    decodeAll parse [ndjsonEncode (pre ++ l :: post)] =
      decodeAll parse [ndjsonEncode pre] ++ decodeAll parse [ndjsonEncode post] := by
  have hpre : ∀ x ∈ pre, '\n' ∉ x := fun x hx => hnl x (by simp [hx])
  have hpost : ∀ x ∈ post, '\n' ∉ x := fun x hx => hnl x (by simp [hx])
  rw [decodeAll_ndjson parse _ hnl, decodeAll_ndjson parse _ hpre,
    decodeAll_ndjson parse _ hpost]
  simp only [lineEvents, List.filterMap_append, List.filterMap_cons]
  by_cases ht : (trimJs l).isEmpty = true <;> simp [ht, hbad]
/-- Witness for C3: a malformed middle line between two good lines. -/
theorem c3_decode_failure_isolation_witness :
    parseW lineBadW = none ∧
    (∀ x ∈ [lineOkW] ++ lineBadW :: [lineOkW], '\n' ∉ x) ∧
    decodeAll parseW [ndjsonEncode ([lineOkW] ++ lineBadW :: [lineOkW])] =
      decodeAll parseW [ndjsonEncode [lineOkW]] ++
        decodeAll parseW [ndjsonEncode [lineOkW]] :=
  ⟨by decide, by decide,
    c3_decode_failure_isolation parseW [lineOkW] [lineOkW] lineBadW
      (by decide) (by decide)⟩
/-- C4 Failure-path atomicity of send: a send that ends in a transport
failure appends the fixed apology and returns to Idle with conversationId,
latestProfile, leadFormVisible, leadSubmitted and pendingLeadMeta all equal to
their values before the failure (for a fetch rejection or a non-success status
that is the pre-send state; for a mid-stream abort it is the state after the
events already delivered), and the typing affordance is cleared whether the
send fails or succeeds. -/
theorem c4_send_failure_atomicity (parse : JsStr → Option EventJson)
    (st : SessionState) (chunks : List (List Nat))
    (h1 : st.chatEnded = false) (h2 : (trimJs st.inputValue).isEmpty = false) :
    ((sendMessage parse st Outcome.netErr).1.conversationId = st.conversationId ∧
     (sendMessage parse st Outcome.netErr).1.latestProfile = st.latestProfile ∧
     (sendMessage parse st Outcome.netErr).1.leadFormVisible = st.leadFormVisible ∧
     (sendMessage parse st Outcome.netErr).1.leadSubmitted = st.leadSubmitted ∧
     (sendMessage parse st Outcome.netErr).1.pendingLeadMeta = st.pendingLeadMeta ∧
     (sendMessage parse st Outcome.netErr).1.chatEnded = false ∧
     (sendMessage parse st Outcome.netErr).1.typing = false ∧
     (sendMessage parse st Outcome.netErr).1.transcript =
       st.transcript ++
         [(Role.user, trimJs st.inputValue), (Role.assistant, apologyMsg)]) ∧
    sendMessage parse st Outcome.badStatus = sendMessage parse st Outcome.netErr ∧
    ((sendMessage parse st (Outcome.stream chunks true)).1.conversationId =
       (afterStream parse st chunks).conversationId ∧
     (sendMessage parse st (Outcome.stream chunks true)).1.latestProfile =
       (afterStream parse st chunks).latestProfile ∧
     (sendMessage parse st (Outcome.stream chunks true)).1.leadFormVisible =
       (afterStream parse st chunks).leadFormVisible ∧
     (sendMessage parse st (Outcome.stream chunks true)).1.leadSubmitted =
       (afterStream parse st chunks).leadSubmitted ∧
     (sendMessage parse st (Outcome.stream chunks true)).1.pendingLeadMeta =
       (afterStream parse st chunks).pendingLeadMeta ∧
     (sendMessage parse st (Outcome.stream chunks true)).1.typing = false ∧
     (sendMessage parse st (Outcome.stream chunks true)).1.transcript =
       (afterStream parse st chunks).transcript ++ [(Role.assistant, apologyMsg)]) ∧
    (sendMessage parse st (Outcome.stream chunks false)).1.typing = false := by
  simp [sendMessage, afterOptimistic, h1, h2]
/-- Witness for C4 at a concrete idle session. -/
theorem c4_send_failure_atomicity_witness :
    stIdleW.chatEnded = false ∧ (trimJs stIdleW.inputValue).isEmpty = false ∧
    (((sendMessage parseEvW stIdleW Outcome.netErr).1.conversationId =
        stIdleW.conversationId ∧
      (sendMessage parseEvW stIdleW Outcome.netErr).1.latestProfile =
        stIdleW.latestProfile ∧
      (sendMessage parseEvW stIdleW Outcome.netErr).1.leadFormVisible =
        stIdleW.leadFormVisible ∧
      (sendMessage parseEvW stIdleW Outcome.netErr).1.leadSubmitted =
        stIdleW.leadSubmitted ∧
      (sendMessage parseEvW stIdleW Outcome.netErr).1.pendingLeadMeta =
        stIdleW.pendingLeadMeta ∧
      (sendMessage parseEvW stIdleW Outcome.netErr).1.chatEnded = false ∧
      (sendMessage parseEvW stIdleW Outcome.netErr).1.typing = false ∧
      (sendMessage parseEvW stIdleW Outcome.netErr).1.transcript =
        stIdleW.transcript ++
          [(Role.user, trimJs stIdleW.inputValue), (Role.assistant, apologyMsg)]) ∧
     sendMessage parseEvW stIdleW Outcome.badStatus =
       sendMessage parseEvW stIdleW Outcome.netErr ∧
     ((sendMessage parseEvW stIdleW (Outcome.stream [] true)).1.conversationId =
        (afterStream parseEvW stIdleW []).conversationId ∧
      (sendMessage parseEvW stIdleW (Outcome.stream [] true)).1.latestProfile =
        (afterStream parseEvW stIdleW []).latestProfile ∧
      (sendMessage parseEvW stIdleW (Outcome.stream [] true)).1.leadFormVisible =
        (afterStream parseEvW stIdleW []).leadFormVisible ∧
      (sendMessage parseEvW stIdleW (Outcome.stream [] true)).1.leadSubmitted =
        (afterStream parseEvW stIdleW []).leadSubmitted ∧
      (sendMessage parseEvW stIdleW (Outcome.stream [] true)).1.pendingLeadMeta =
        (afterStream parseEvW stIdleW []).pendingLeadMeta ∧
      (sendMessage parseEvW stIdleW (Outcome.stream [] true)).1.typing = false ∧
      (sendMessage parseEvW stIdleW (Outcome.stream [] true)).1.transcript =
        (afterStream parseEvW stIdleW []).transcript ++
          [(Role.assistant, apologyMsg)]) ∧
     (sendMessage parseEvW stIdleW (Outcome.stream [] false)).1.typing = false) :=
  ⟨by decide, by decide,
    c4_send_failure_atomicity parseEvW stIdleW [] (by decide) (by decide)⟩
/-- C7 Send is a no-op once ended: with `chatEnded` set, both send
variants return the state untouched and issue no network request (the returned
flag), so no transcript entry is appended and no session field changes. -/
theorem c7_send_noop_when_ended (parse : JsStr → Option EventJson)
    (st : SessionState) (o : Outcome) (bid : JsStr) (os : SimpleOutcome)
    (h : st.chatEnded = true) :
    sendMessage parse st o = (st, false) ∧
    sendMessageSimple bid st os = (st, false) := by
  constructor <;> simp [sendMessage, sendMessageSimple, h]
/-- Witness for C7 at a concrete ended session. -/
theorem c7_send_noop_when_ended_witness :
    stEndedW.chatEnded = true ∧
    sendMessage parseEvW stEndedW Outcome.netErr = (stEndedW, false) ∧
    sendMessageSimple bidW stEndedW SimpleOutcome.fail = (stEndedW, false) :=
  ⟨by decide,
    (c7_send_noop_when_ended parseEvW stEndedW Outcome.netErr bidW
      SimpleOutcome.fail (by decide)).1,
    (c7_send_noop_when_ended parseEvW stEndedW Outcome.netErr bidW
      SimpleOutcome.fail (by decide)).2⟩
set_option maxRecDepth 8000 in
/-- C5 counterexample A reply with 7 recognized image tags: all 7 tags are
removed and collected, but the rendered output contains 0 captioned images,
not min(7,5) = 5 — the carousel is never attached. -/
theorem c5_seven_tags_zero_rendered_counterexample :
    (renderAssistantMessage sevenTagText).collectedImages.length = 7 ∧
    (renderAssistantMessage sevenTagText).body = ("see  done".data).map Piece.ch ∧
    renderedImages (renderAssistantMessage sevenTagText).body = [] ∧
    ¬ (renderedImages (renderAssistantMessage sevenTagText).body).length =
      min 7 5 := by
  refine ⟨by decide, by decide, by decide, by decide⟩
/-- C5 (amended) Every recognized image tag is removed from the body and
its image collected, but the renderer never attaches the carousel, so zero
captioned images are rendered regardless of the number of tags; the unused
`buildCarousel` helper is what caps at min(n, 5) figures. -/
theorem c5_renderer_attaches_no_images_carousel_caps (text : JsStr)
    (imgs : List ImageRef) :
    renderedImages (renderAssistantMessage text).body = [] ∧
    (buildCarousel imgs).length = min imgs.length 5 := by
  constructor
  · simp only [renderAssistantMessage, scanCards]
    exact scanCardsAux_no_figures _ _
  · simp [buildCarousel, List.length_take, Nat.min_comm]
/-- C6 counterexample A price that starts with the currency symbol `€` is
not passed through unchanged: the code only checks `startsWith('$')`, so
`price="€100"` renders as `$NaN`. -/
theorem c6_currency_symbol_counterexample :
    (mkListingCard euroPriceAttr).price = "$NaN".data ∧
    ¬ (mkListingCard euroPriceAttr).price = "€100".data := by
  constructor <;> decide
/-- C6 (amended) Listing-card price formatting: a price starting with the
dollar sign `$` renders unchanged; a bare decimal-digit price renders as `$`
plus its value with locale thousands separators; an absent price renders the
fixed placeholder. -/
theorem c6_price_formatting_dollar_rule (s : List Char) :
    (∀ p, lookupAttr (extractAttrs s) priceKey = some p → p ≠ [] →
      ((p.head? = some '$' → (mkListingCard s).price = p) ∧
       (p.all Char.isDigit = true →
         (mkListingCard s).price =
           '$' :: groupDigits
             (Nat.repr
               (p.foldl (fun a c => a * 10 + (c.toNat - '0'.toNat)) 0)).data))) ∧
    (lookupAttr (extractAttrs s) priceKey = none →
      (mkListingCard s).price = contactForPrice) := by
  constructor
  · intro p hlk hne
    have hM : (mkListingCard s).price = priceFormatted (some p) := by
      simp [mkListingCard, hlk]
    have hE : p.isEmpty = false := by
      cases p
      · exact absurd rfl hne
      · rfl
    constructor
    · intro hh
      rw [hM]
      simp [priceFormatted, hE, hh]
    · intro hd
      rw [hM]
      cases p with
      | nil => exact absurd rfl hne
      | cons d t =>
        have hdd : d.isDigit = true :=
          (List.all_eq_true.mp hd) d (List.mem_cons_self _ _)
        have hne' : ¬ d = '$' := by
          intro hh
          subst hh
          exact absurd hdd (by decide)
        have htrim := trimJs_digits (d :: t) hd
        simp [priceFormatted, hne', jsNumber, htrim, hd, toLocaleNum]
  · intro hnone
    simp [mkListingCard, hnone, priceFormatted]
/-- Witness for C6 (amended) on the three concrete price forms of the spec. -/
theorem c6_price_formatting_dollar_rule_witness :
    lookupAttr (extractAttrs dollarPriceAttr) priceKey = some ("$1,000".data) ∧
    ("$1,000".data : JsStr) ≠ [] ∧
    ("$1,000".data : JsStr).head? = some '$' ∧
    (mkListingCard dollarPriceAttr).price = "$1,000".data ∧
    lookupAttr (extractAttrs barePriceAttr) priceKey = some ("450000".data) ∧
    ("450000".data : JsStr).all Char.isDigit = true ∧
    (mkListingCard barePriceAttr).price = "$450,000".data ∧
    lookupAttr (extractAttrs noPriceAttr) priceKey = none ∧
    (mkListingCard noPriceAttr).price = contactForPrice :=
  ⟨by decide, by decide, by decide,
    ((c6_price_formatting_dollar_rule dollarPriceAttr).1 ("$1,000".data)
      (by decide) (by decide)).1 (by decide),
    by decide, by decide,
    by
      have h := ((c6_price_formatting_dollar_rule barePriceAttr).1
        ("450000".data) (by decide) (by decide)).2 (by decide)
      rw [h]
      decide,
    by decide,
    (c6_price_formatting_dollar_rule noPriceAttr).2 (by decide)⟩
/-- C8 counterexample A turn with `product_name` present, no suppression
condition, and **no routing signal**: `handleRouting` returns at
`if (!routing) return` and the lead form is not shown, contradicting the
claim that fire condition (d) applies even without routing. -/
theorem c8_no_routing_counterexample :
    truthy profProductW.product_name = true ∧
    stFreshW.leadFormVisible = false ∧
    stFreshW.leadSubmitted = false ∧
    contactOnFile (some profProductW) = false ∧
    (handleRouting stFreshW none (some profProductW)).leadFormVisible = false := by
  refine ⟨by decide, by decide, by decide, by decide, by decide⟩
/-- C8 (amended) Fire condition (d) holds only on turns that carry a
routing signal: when the backend supplied routing and the profile carries a
product name or requested date and no suppression condition holds, the gate
fires and the form is shown; with no routing signal the gate is not evaluated
(`c8_no_routing_counterexample`). -/
theorem c8_product_or_date_fires_given_routing (st : SessionState)
    (r : Routing) (p : Profile)
    (hpd : truthy p.product_name = true ∨ truthy p.requested_date = true)
    (hv : st.leadFormVisible = false) (hs : st.leadSubmitted = false)
    (hc : contactOnFile (some p) = false) :
    (handleRouting st (some r) (some p)).leadFormVisible = true := by
  rcases hpd with h | h <;>
    simp [handleRouting, renderLeadForm, hv, hs, hc, h]
/-- Witness for C8 (amended) at a concrete fresh session. -/
theorem c8_product_or_date_fires_given_routing_witness :
    (truthy profProductW.product_name = true ∨
      truthy profProductW.requested_date = true) ∧
    stFreshW.leadFormVisible = false ∧ stFreshW.leadSubmitted = false ∧
    contactOnFile (some profProductW) = false ∧
    (handleRouting stFreshW (some routingEmptyW)
      (some profProductW)).leadFormVisible = true :=
  ⟨Or.inl (by decide), by decide, by decide, by decide,
    c8_product_or_date_fires_given_routing stFreshW routingEmptyW profProductW
      (Or.inl (by decide)) (by decide) (by decide) (by decide)⟩
/-- C9 counterexample `saveConversation(data.conversation_id)` installs
the echoed id without any guard: a result event carrying an empty id replaces
a non-empty conversation id with the empty string, breaking the claimed
invariant. -/
theorem c9_unguarded_empty_echo_counterexample :
    stFreshW.conversationId ≠ [] ∧
    (dispatchEvent stFreshW (EventJson.result resultEmptyIdW)).conversationId =
      [] := by
  constructor
  · decide
  · decide
/-- C9 (amended) The conversation id is generated non-empty at session
start and at reset (the UUID branch under the platform guarantee, the
fallback branch by its `conv-` literal), and a backend `result` event replaces
it verbatim with the echoed id — so replacement preserves non-emptiness
exactly when the echoed id is itself non-empty. -/
theorem c9_id_generation_and_replacement (uuid : Option JsStr) (rand : JsStr)
    (st : SessionState) (d : ResultData)
    (huuid : (uuid.getD convDashLit).isEmpty = false) :
    makeConversationId uuid rand ≠ [] ∧
    (resetChat uuid rand st).conversationId ≠ [] ∧
    (dispatchEvent st (EventJson.result d)).conversationId =
      d.conversation_id := by
  have h1 : makeConversationId uuid rand ≠ [] := by
    cases uuid with
    | none => simp [makeConversationId, convDashLit]
    | some u =>
      simp only [makeConversationId]
      intro hh
      subst hh
      simp at huuid
  refine ⟨h1, by simpa [resetChat] using h1, ?_⟩
  by_cases hl : d.lead_captured = true <;>
    simp [dispatchEvent, hl, handleRouting_conversationId, saveConversation]
/-- Witness for C9 (amended) at concrete generation and replacement inputs. -/
theorem c9_id_generation_and_replacement_witness :
    (uuidW.getD convDashLit).isEmpty = false ∧
    (makeConversationId uuidW [] ≠ [] ∧
     (resetChat uuidW [] stFreshW).conversationId ≠ [] ∧
     (dispatchEvent stFreshW (EventJson.result resultEchoW)).conversationId =
       resultEchoW.conversation_id) :=
  ⟨by decide,
    c9_id_generation_and_replacement uuidW [] stFreshW resultEchoW (by decide)⟩
/-- C10 Dismissing the lead form is not a permanent opt-out: the
"Remind me later" handler clears `leadFormVisible`, leaves `leadSubmitted`
as it was, and on any later turn whose signals satisfy a fire condition with
no suppression the gate shows the form again. -/
theorem c10_dismiss_not_permanent (st : SessionState) (r : Routing)
    (p : Profile)
    (hs : st.leadSubmitted = false)
    (hfire : (oEq r.lead_capture yesLit || oEq p.stage contactLit ||
      oEq p.stage scheduleLit || oEq r.intent bookLit || oEq r.intent buyLit ||
      oEq r.intent pricingLit || truthy p.product_name ||
      truthy p.requested_date) = true)
    (hc : contactOnFile (some p) = false) :
    (dismissLeadForm st).leadFormVisible = false ∧
    (dismissLeadForm st).leadSubmitted = st.leadSubmitted ∧
    (handleRouting (dismissLeadForm st) (some r) (some p)).leadFormVisible =
      true := by
  refine ⟨rfl, rfl, ?_⟩
  simp only [Bool.or_eq_true] at hfire
  rcases hfire with (((((((hf | hf) | hf) | hf) | hf) | hf) | hf) | hf) <;>
    simp [handleRouting, renderLeadForm, dismissLeadForm, hs, hc, hf]
/-- Witness for C10 at a session with a visible form and a live fire signal. -/
theorem c10_dismiss_not_permanent_witness :
    stFormVisibleW.leadSubmitted = false ∧
    (oEq routingYesW.lead_capture yesLit ||
      oEq profProductW.stage contactLit ||
      oEq profProductW.stage scheduleLit ||
      oEq routingYesW.intent bookLit || oEq routingYesW.intent buyLit ||
      oEq routingYesW.intent pricingLit ||
      truthy profProductW.product_name ||
      truthy profProductW.requested_date) = true ∧
    contactOnFile (some profProductW) = false ∧
    ((dismissLeadForm stFormVisibleW).leadFormVisible = false ∧
     (dismissLeadForm stFormVisibleW).leadSubmitted =
       stFormVisibleW.leadSubmitted ∧
     (handleRouting (dismissLeadForm stFormVisibleW) (some routingYesW)
        (some profProductW)).leadFormVisible = true) :=
  ⟨by decide, by decide, by decide,
    c10_dismiss_not_permanent stFormVisibleW routingYesW profProductW
      (by decide) (by decide) (by decide)⟩
